import Mathlib

/-!
Verification of the `highlights` travelogue generator and its web viewer.

The web viewer (`generator/web/tl_view.js`, `generator/web/trip_config.js`)
is embedded directly from the JavaScript source.  The core pipeline
(Location Resolver, Travelogue Builder, GeoJSON Generator) is described in
`decisions.md` and the design documentation but its implementation is not
part of the repository snapshot; those components are modelled from the
spec, as noted in their doc comments.
-/

/-- A JavaScript/JSON value, as far as the viewer code inspects one:
strings, numbers, arrays and objects. -/
inductive JValue where
  | jstr : String → JValue
  | jnum : Int → JValue
  | jarr : List JValue → JValue
  | jobj : List (String × JValue) → JValue
deriving Repr

/-- Property access `obj.key` on a JS object: the value of the first field
with the given key, `none` when the value is not an object or the key is
absent (JS `undefined`). -/
def getField (v : JValue) (key : String) : Option JValue :=
  match v with
  | JValue.jobj fields => (fields.find? (fun p => p.1 = key)).map Prod.snd
  | _ => none

/-- A geographic coordinate as it appears in the embedded data. -/
structure Loc where
  lat : Int
  lon : Int
deriving DecidableEq, Repr

/-- GeoJSON geometry, restricted to the `type` tags the viewer code
dispatches on (`Point`, `LineString`, `MultiLineString`, anything else). -/
inductive Geometry where
  | point : Loc → Geometry
  | lineString : List Loc → Geometry
  | multiLineString : List (List Loc) → Geometry
  | otherGeom : Geometry
deriving DecidableEq, Repr

/-- A GeoJSON feature as the viewer consumes it: a geometry and a
`properties` object, modelled as a string-keyed association list of
string values. -/
structure Feature where
  geometry : Geometry
  props : List (String × String)
deriving DecidableEq, Repr

/-- A parsed GeoJSON document (`FeatureCollection`): its list of features. -/
structure GeoJsonDoc where
  features : List Feature
deriving DecidableEq, Repr

/-- Outcome of `fetch(url)` followed by `response.json()` for one URL:
success with a parsed document, a non-ok HTTP response, or a thrown error
(network failure or JSON parse error). -/
inductive FetchResult where
  | ok : GeoJsonDoc → FetchResult
  | notOk : String → FetchResult
  | fetchError : FetchResult
deriving DecidableEq, Repr

/-- `true` on the outcomes the viewer loop skips (non-ok response, thrown
error). -/
def FetchResult.isFailure : FetchResult → Bool
  | FetchResult.ok _ => false
  | _ => true

/-- `getColorForLine` from `tl_view.js`: hue rotation by index, rendered
as an `hsl(...)` CSS string. -/
def getColorForLine (index : Nat) : String :=
  "hsl(" ++ toString ((index * 30) % 360) ++ ", 100%, 50%)"

/-- A Leaflet layer added to the map by the viewer: a `L.geoJSON` layer of
line features with its style color, the marker-cluster group (each marker
carries its point feature and the popup text bound to it), or the OSM tile
layer. -/
inductive Layer where
  | geoLines : String → List Feature → Layer
  | markerGroup : List (Feature × String) → Layer
  | tileLayer : Layer
deriving DecidableEq, Repr

/-- The Leaflet map state the viewer mutates: the bounds passed to
`fitBounds` and the ordered list of layers added so far. -/
structure MapState where
  bounds : Option JValue
  layers : List Layer

/-- Property lookup `feature.properties.key` for string-valued properties. -/
def lookupProp (props : List (String × String)) (key : String) : Option String :=
  (props.find? (fun p => p.1 = key)).map Prod.snd

/-- Rendering of a property inside a template literal: a missing property
(JS `undefined`) prints as `"undefined"`. -/
def renderProp : Option String → String
  | some s => s
  | none => "undefined"

/-- The popup text bound in `onEachFeature` of the point layer in
`tl_view.js`: `date_label` starts empty, is set to
`feature.properties.timestamp` when that value is truthy (for a string:
nonempty), and the popup is the template
`${feature.properties.type}, ${date_label}`. -/
def bindPopupText (props : List (String × String)) : String :=
  let date_label :=
    match lookupProp props "timestamp" with
    | some t => if t = "" then "" else t
    | none => ""
  renderProp (lookupProp props "type") ++ ", " ++ date_label

/-- The filter of the first `L.geoJSON` call: keep `LineString` and
`MultiLineString` geometries. -/
def isLineFeature (f : Feature) : Bool :=
  match f.geometry with
  | Geometry.lineString _ => true
  | Geometry.multiLineString _ => true
  | _ => false

/-- The filter of the second `L.geoJSON` call: keep `Point` geometries. -/
def isPointFeature (f : Feature) : Bool :=
  match f.geometry with
  | Geometry.point _ => true
  | _ => false

/-- The line layer one URL contributes to the map: on a successful fetch,
the `L.geoJSON` layer of the document's line features styled with
`getColorForLine colorIndex`; on a failed fetch, nothing (the loop body
skips to the next URL). -/
def urlLine (w : JValue → FetchResult) (colorIndex : Nat) (url : JValue) :
    Option Layer :=
  match w url with
  | FetchResult.ok d => some (Layer.geoLines (getColorForLine colorIndex)
      (d.features.filter isLineFeature))
  | _ => none

/-- The markers one URL contributes to the cluster group: on success, one
marker per point feature, with the popup text bound by `onEachFeature`;
on failure, none. -/
def urlPoints (w : JValue → FetchResult) (url : JValue) :
    List (Feature × String) :=
  match w url with
  | FetchResult.ok d =>
      (d.features.filter isPointFeature).map (fun f => (f, bindPopupText f.props))
  | _ => []

/-- The `for (const url of config.geojsonFiles)` loop of
`loadTravelogueGeojson`: `colorIndex` is incremented at the top of each
iteration, each URL is fetched, a failure is logged and skipped
(`continue` / `catch`), a success adds its line layer to the map and its
point markers to the cluster group. Returns the line layers added (in
order) and the accumulated markers. -/
def processUrls (w : JValue → FetchResult) (colorIndex : Nat) :
    List JValue → List Layer × List (Feature × String)
  | [] => ([], [])
  | url :: rest =>
      let restRes := processUrls w (colorIndex + 1) rest
      ((urlLine w (colorIndex + 1) url).toList ++ restRes.1,
       urlPoints w url ++ restRes.2)

/-- `loadTravelogueGeojson(config, leafletMap)` from `tl_view.js`: if
`config.geojsonFiles` is missing or not an array, log and return with the
map untouched; otherwise process every URL starting from `colorIndex = 4`
and finally add the marker-cluster group to the map
(`leafletMap.addLayer(markers)`).  `w` stands for the outcome of
`fetch` + `json()` per URL. -/
def loadTravelogueGeojson (config : JValue) (w : JValue → FetchResult)
    (m : MapState) : MapState :=
  match getField config "geojsonFiles" with
  | some (JValue.jarr urls) =>
      let res := processUrls w 4 urls
      { m with layers := m.layers ++ res.1 ++ [Layer.markerGroup res.2] }
  | _ => m

/-- The shipped `tripConfig` object from `trip_config.js`, verbatim. -/
def tripConfig : JValue :=
  JValue.jobj
    [ ("tripName", JValue.jstr "Kootenay Adventure 2025"),
      ("bbox", JValue.jarr
        [ JValue.jarr [JValue.jnum 49, JValue.jnum (-119)],
          JValue.jarr [JValue.jnum 50, JValue.jnum (-116)] ]),
      ("geojsonFiles", JValue.jarr
        [ JValue.jstr "/trips/tl_koot/koot-2025-06-14.geojson",
          JValue.jstr "/trips/tl_koot/koot-2025-06-15.geojson",
          JValue.jstr "/trips/tl_koot/koot-2025-06-16.geojson",
          JValue.jstr "/trips/tl_koot/koot-2025-06-17.geojson",
          JValue.jstr "/trips/tl_koot/koot-2025-06-18.geojson",
          JValue.jstr "/trips/tl_koot/koot-2025-06-19.geojson" ]) ]

/-- `loadTrip(config, map)` from `tl_view.js`: calls
`map.fitBounds(config.bbox)`, then starts `loadTravelogueGeojson` — passing
the global `tripConfig`, not its own `config` parameter — and adds the OSM
tile layer.  The un-awaited async call lands its layers after the
synchronously added tile layer. -/
def loadTrip (w : JValue → FetchResult) (config : JValue) (m : MapState) :
    MapState :=
  let m1 : MapState := { m with bounds := getField config "bbox" }
  let m2 : MapState := { m1 with layers := m1.layers ++ [Layer.tileLayer] }
  loadTravelogueGeojson tripConfig w m2

/-- `true` on a two-element JSON array of numbers, the `[lat, lon]` shape. -/
def isLatLonPair : JValue → Bool
  | JValue.jarr [JValue.jnum _, JValue.jnum _] => true
  | _ => false

/-- Stated from the spec's words: the trip configuration record consumed by
the viewer has shape
`{tripName: string, bbox: [[lat,lon],[lat,lon]], geojsonFiles: [url, ...]}`
— a string `tripName`, a `bbox` of exactly two lat-lon pairs, and an array
of string URLs in `geojsonFiles`. -/
def tripConfigShapeSpec (v : JValue) : Bool :=
  (match getField v "tripName" with
   | some (JValue.jstr _) => true
   | _ => false)
  && (match getField v "bbox" with
      | some (JValue.jarr [p1, p2]) => isLatLonPair p1 && isLatLonPair p2
      | _ => false)
  && (match getField v "geojsonFiles" with
      | some (JValue.jarr files) =>
          files.all (fun f => match f with | JValue.jstr _ => true | _ => false)
      | _ => false)

/-!
## Location Resolver (modelled from the spec)

`decisions.md`: "The first approximation is the most recent location."
Spec §4.3 / §9: process the artifacts in timestamp order as an explicit
fold carrying a single last-known-location accumulator; artifacts with an
intrinsic location update the accumulator, artifacts without one receive
the accumulator's value marked `approximated = true`, and artifacts before
the first located one stay unlocated.
-/

/-- An artifact as the Location Resolver receives it: identifier,
timestamp, and the optional intrinsic geolocation. -/
structure RawArtifact where
  id : Nat
  timestamp : Int
  loc : Option Loc
deriving DecidableEq, Repr

/-- An artifact after location resolution: location possibly filled in and
flagged `approximated`. -/
structure ResolvedArtifact where
  id : Nat
  timestamp : Int
  loc : Option Loc
  approximated : Bool
deriving DecidableEq, Repr

/-- Modelled from the spec: the fold body of the Location Resolver.
`last` is the last-known-location accumulator; an intrinsically located
artifact keeps its location (`approximated = false`) and updates the
accumulator, an unlocated artifact is forward-filled from the accumulator
(`approximated = true`) or left unlocated when no location has been seen. -/
def resolveGo (last : Option Loc) : List RawArtifact → List ResolvedArtifact
  | [] => []
  | a :: rest =>
      match a.loc with
      | some l => ⟨a.id, a.timestamp, some l, false⟩ :: resolveGo (some l) rest
      | none =>
          match last with
          | some l => ⟨a.id, a.timestamp, some l, true⟩ :: resolveGo (some l) rest
          | none => ⟨a.id, a.timestamp, none, false⟩ :: resolveGo none rest

/-- Modelled from the spec: `resolve(artifacts: ordered sequence) ->
artifacts with location filled`, starting with no known location. -/
def resolve (artifacts : List RawArtifact) : List ResolvedArtifact :=
  resolveGo none artifacts

/-- The latest intrinsic location in a list, given a starting accumulator:
the state of the resolver's fold after consuming the list. -/
def foldLoc (last : Option Loc) : List RawArtifact → Option Loc
  | [] => last
  | a :: rest =>
      match a.loc with
      | some l => foldLoc (some l) rest
      | none => foldLoc last rest

/-- The location of the most recent artifact before index `i` that carries
an intrinsic location (`none` when every earlier artifact is unlocated). -/
def lastIntrinsicBefore (artifacts : List RawArtifact) (i : Nat) : Option Loc :=
  foldLoc none (artifacts.take i)

/-- What the spec says one resolved artifact must be, given the location
`prev` of the most recent preceding intrinsically located artifact. -/
def resolveSpecAt (a : RawArtifact) (prev : Option Loc) : ResolvedArtifact :=
  match a.loc with
  | some l => ⟨a.id, a.timestamp, some l, false⟩
  | none =>
      match prev with
      | some l => ⟨a.id, a.timestamp, some l, true⟩
      | none => ⟨a.id, a.timestamp, none, false⟩

/-- Timestamp-sortedness of the resolver's input: each artifact's timestamp
is at most the next one's. -/
def sortedByTimestamp : List RawArtifact → Bool
  | [] => true
  | [_] => true
  | a :: b :: rest => (a.timestamp ≤ b.timestamp) && sortedByTimestamp (b :: rest)

/-!
## Travelogue Builder (modelled from the spec)

Spec §3/§4.4/§9: a `Day` owns an ordered list of artifact ids, a
`Travelogue` is the ordered collection of Days;
`moveArtifact(artifactId, fromDay, toDay, position)` fails with
`NotFoundError` when a referenced day does not exist or the artifact is not
currently owned by `fromDay`, and otherwise removes the artifact from
`fromDay`'s sequence and inserts it at `position` in `toDay`'s sequence.
-/

/-- A Day: its ISO-8601 key and the ordered sequence of artifact ids it
owns. -/
structure Day where
  key : String
  artifacts : List Nat
deriving DecidableEq, Repr

/-- The Travelogue: its ordered collection of Days. -/
structure Travelogue where
  days : List Day
deriving DecidableEq, Repr

/-- Error raised by Travelogue mutations. -/
inductive TlError where
  | NotFoundError : TlError
deriving DecidableEq, Repr

/-- The first Day with the given key in a list of Days. -/
def dayFind (days : List Day) (key : String) : Option Day :=
  days.find? (fun d => d.key = key)

/-- The Day of a Travelogue with the given key (the first, should keys ever
collide). -/
def findDay (t : Travelogue) (key : String) : Option Day :=
  dayFind t.days key

/-- Replace the artifact sequence of the first Day with the given key by
applying `f` to it; other Days are untouched. -/
def updateDay : List Day → String → (List Nat → List Nat) → List Day
  | [], _, _ => []
  | d :: rest, key, f =>
      if d.key = key then { d with artifacts := f d.artifacts } :: rest
      else d :: updateDay rest key f

/-- Insertion at a position in a sequence (append when the position is past
the end), as JS `splice(position, 0, x)` behaves. -/
def insertAt (l : List Nat) (position : Nat) (x : Nat) : List Nat :=
  l.take position ++ x :: l.drop position

/-- Modelled from the spec: `moveArtifact(artifactId, fromDay, toDay,
position)`.  Fails with `NotFoundError` when `fromDay` or `toDay` does not
exist or the artifact is not currently owned by `fromDay`; otherwise
removes the artifact from `fromDay`'s sequence and inserts it at
`position` in `toDay`'s sequence, and no state is mutated on failure. -/
def moveArtifact (t : Travelogue) (artifactId : Nat) (fromDay toDay : String)
    (position : Nat) : Except TlError Travelogue :=
  match findDay t fromDay, findDay t toDay with
  | some fd, some _ =>
      if artifactId ∈ fd.artifacts then
        Except.ok ⟨updateDay (updateDay t.days fromDay (fun l => l.erase artifactId))
          toDay (fun l => insertAt l position artifactId)⟩
      else Except.error TlError.NotFoundError
  | _, _ => Except.error TlError.NotFoundError

/-- A user move/reorder request. -/
structure MoveOp where
  artifactId : Nat
  fromDay : String
  toDay : String
  position : Nat
deriving DecidableEq, Repr

/-- Apply a sequence of move operations; a failed move surfaces its error
to the caller and leaves the Travelogue unchanged, later operations
proceed. -/
def applyMoves (t : Travelogue) : List MoveOp → Travelogue
  | [] => t
  | op :: rest =>
      match moveArtifact t op.artifactId op.fromDay op.toDay op.position with
      | Except.ok t2 => applyMoves t2 rest
      | Except.error _ => applyMoves t rest

/-- How many Days own the given artifact id, counted with multiplicity. -/
def ownersCount (t : Travelogue) (artifactId : Nat) : Nat :=
  (t.days.map (fun d => d.artifacts.count artifactId)).sum

/-- Day keys are pairwise distinct (spec §3 invariant). -/
def keysNodup (t : Travelogue) : Prop :=
  (t.days.map Day.key).Nodup

/-!
## GeoJSON Generator (modelled from the spec)

Spec §4.5 / `decisions.md` "GeoJSON mappings": per Day, one
FeatureCollection; one `LineString` (single-segment) or `MultiLineString`
(multi-segment) feature per track artifact; one `Point` feature per
geolocated non-track artifact carrying the `approximated` flag; artifacts
with no location are omitted from geometry and listed in a parallel
non-spatial listing, and feature order follows the Day's artifact order.
-/

/-- The non-track artifact types of the data model. -/
inductive MediaType where
  | image : MediaType
  | video : MediaType
  | other : MediaType
deriving DecidableEq, Repr

/-- An artifact as the GeoJSON Generator consumes it: a track with its
line segments, or a non-track artifact with an optional resolved point
location and its `approximated` flag. -/
inductive DayArtifact where
  | track : Nat → Int → List (List Loc) → DayArtifact
  | media : Nat → MediaType → Int → Option Loc → Bool → DayArtifact
deriving DecidableEq, Repr

/-- A generated GeoJSON feature: geometry plus the properties the spec
fixes (artifact id, type, timestamp, and for points the `approximated`
flag). -/
structure GFeature where
  geometry : Geometry
  fid : Nat
  ftype : String
  ftimestamp : Int
  fapproximated : Option Bool
deriving DecidableEq, Repr

/-- Render a media type as the `type` property string. -/
def MediaType.asString : MediaType → String
  | MediaType.image => "image"
  | MediaType.video => "video"
  | MediaType.other => "other"

/-- Modelled from the spec: the feature one artifact contributes.  A track
becomes a `LineString` for a single segment and a `MultiLineString`
otherwise; a geolocated non-track artifact becomes a `Point` carrying its
`approximated` flag; an unlocated non-track artifact contributes no
feature. -/
def featureOf : DayArtifact → Option GFeature
  | DayArtifact.track i ts [seg] =>
      some ⟨Geometry.lineString seg, i, "track", ts, none⟩
  | DayArtifact.track i ts segs =>
      some ⟨Geometry.multiLineString segs, i, "track", ts, none⟩
  | DayArtifact.media i mt ts (some l) appr =>
      some ⟨Geometry.point l, i, mt.asString, ts, some appr⟩
  | DayArtifact.media _ _ _ none _ => none

/-- Modelled from the spec: the FeatureCollection for one Day, one feature
per contributing artifact in the Day's artifact order. -/
def generateDayFeatures : List DayArtifact → List GFeature
  | [] => []
  | a :: rest =>
      match featureOf a with
      | some f => f :: generateDayFeatures rest
      | none => generateDayFeatures rest

/-- Modelled from the spec: the parallel non-spatial listing of the Day's
artifacts that contribute no geometry. -/
def nonSpatialListing (arts : List DayArtifact) : List DayArtifact :=
  arts.filter (fun a => (featureOf a).isNone)

/-- `true` on `LineString`/`MultiLineString` features. -/
def isLineGFeature (f : GFeature) : Bool :=
  match f.geometry with
  | Geometry.lineString _ => true
  | Geometry.multiLineString _ => true
  | _ => false

/-- `true` on `Point` features. -/
def isPointGFeature (f : GFeature) : Bool :=
  match f.geometry with
  | Geometry.point _ => true
  | _ => false

/-- `true` on track artifacts. -/
def isTrackArtifact : DayArtifact → Bool
  | DayArtifact.track _ _ _ => true
  | _ => false

/-- `true` on geolocated non-track artifacts. -/
def isGeolocatedMedia : DayArtifact → Bool
  | DayArtifact.media _ _ _ (some _) _ => true
  | _ => false

/-!
## Concrete fixtures used by the example conjuncts and the witnesses
-/

/-- `none` falls back to a default; the accumulator update of the
resolver's fold. -/
def orDefault (x y : Option Loc) : Option Loc :=
  match x with
  | some l => some l
  | none => y

/-- The spec's Location Resolver example input:
`[loc(10,20)@t1, none@t2, none@t3, loc(11,21)@t4]`. -/
def c1InputEx : List RawArtifact :=
  [⟨1, 1, some ⟨10, 20⟩⟩, ⟨2, 2, none⟩, ⟨3, 3, none⟩, ⟨4, 4, some ⟨11, 21⟩⟩]

/-- The resolved output the spec demands for `c1InputEx`. -/
def c1OutputEx : List ResolvedArtifact :=
  [⟨1, 1, some ⟨10, 20⟩, false⟩, ⟨2, 2, some ⟨10, 20⟩, true⟩,
   ⟨3, 3, some ⟨10, 20⟩, true⟩, ⟨4, 4, some ⟨11, 21⟩, false⟩]

/-- The example input preceded by an unlocated artifact at `t0 < t1`. -/
def c1InputEx0 : List RawArtifact := ⟨0, 0, none⟩ :: c1InputEx

/-- The resolved output for `c1InputEx0`: the artifact at `t0` stays
unlocated. -/
def c1OutputEx0 : List ResolvedArtifact := ⟨0, 0, none, false⟩ :: c1OutputEx

/-- A two-day Travelogue owning artifacts 1 and 2. -/
def tEx : Travelogue := ⟨[⟨"2025-06-14", [1]⟩, ⟨"2025-06-15", [2]⟩]⟩

/-- A two-day Travelogue owning artifacts 7 and 9. -/
def tEx4 : Travelogue := ⟨[⟨"2025-06-14", [7]⟩, ⟨"2025-06-15", [9]⟩]⟩

/-- `tEx4` after moving artifact 7 to the second day at position 0. -/
def t1Ex4 : Travelogue := ⟨[⟨"2025-06-14", []⟩, ⟨"2025-06-15", [7, 9]⟩]⟩

/-- A Day's artifacts: one 3-point GPX track and two geolocated photos. -/
def c5DayEx : List DayArtifact :=
  [DayArtifact.track 1 10 [[⟨0, 0⟩, ⟨1, 1⟩, ⟨2, 2⟩]],
   DayArtifact.media 2 MediaType.image 11 (some ⟨3, 3⟩) false,
   DayArtifact.media 3 MediaType.image 12 (some ⟨4, 4⟩) true]

/-- The FeatureCollection the spec demands for `c5DayEx`: one `LineString`
and two `Point` features, in the Day's artifact order. -/
def c5FeaturesEx : List GFeature :=
  [⟨Geometry.lineString [⟨0, 0⟩, ⟨1, 1⟩, ⟨2, 2⟩], 1, "track", 10, none⟩,
   ⟨Geometry.point ⟨3, 3⟩, 2, "image", 11, some false⟩,
   ⟨Geometry.point ⟨4, 4⟩, 3, "image", 12, some true⟩]

/-- A sample fetched FeatureCollection with one line and one point feature. -/
def docEx : GeoJsonDoc :=
  ⟨[⟨Geometry.lineString [⟨1, 2⟩, ⟨3, 4⟩], [("type", "track"), ("timestamp", "2025-06-14")]⟩,
    ⟨Geometry.point ⟨5, 6⟩, [("type", "image"), ("timestamp", "2025-06-15")]⟩]⟩

/-- A fetch world in which every URL succeeds with `docEx`. -/
def wOkEx : JValue → FetchResult := fun _ => FetchResult.ok docEx

/-- A fetch world in which the URL `"bad"` throws and every other URL
succeeds with `docEx`. -/
def wFailEx : JValue → FetchResult := fun v =>
  match v with
  | JValue.jstr s => if s = "bad" then FetchResult.fetchError else FetchResult.ok docEx
  | _ => FetchResult.ok docEx

/-- An empty Leaflet map. -/
def mEx : MapState := ⟨none, []⟩

/-- A config whose `geojsonFiles` lists three URLs, the middle one `"bad"`. -/
def cfgUrlsEx : JValue :=
  JValue.jobj [("geojsonFiles",
    JValue.jarr [JValue.jstr "a0", JValue.jstr "bad", JValue.jstr "c0"])]

/-- A config whose `geojsonFiles` is present but not an array. -/
def cfgNoFilesEx : JValue :=
  JValue.jobj [("tripName", JValue.jstr "x"), ("geojsonFiles", JValue.jstr "oops")]

/-- A config that shares `tripConfig`'s bbox but has an empty
`geojsonFiles` and no `tripName`. -/
def cfgBboxOnlyEx : JValue :=
  JValue.jobj
    [ ("bbox", JValue.jarr
        [ JValue.jarr [JValue.jnum 49, JValue.jnum (-119)],
          JValue.jarr [JValue.jnum 50, JValue.jnum (-116)] ]),
      ("geojsonFiles", JValue.jarr []) ]

/-- Feature properties carrying a `type` and a `timestamp`. -/
def popupPropsEx : List (String × String) :=
  [("type", "image"), ("timestamp", "2025-06-14")]

/-!
## Lemmas about the Location Resolver
-/

theorem resolveGo_length (last : Option Loc) (as : List RawArtifact) :
    (resolveGo last as).length = as.length := by
  induction as generalizing last with
  | nil => rfl
  | cons a rest ih =>
      cases ha : a.loc with
      | some l => simp [resolveGo, ha, ih]
      | none => cases last <;> simp [resolveGo, ha, ih]

theorem resolveGo_getElem? (as : List RawArtifact) (last : Option Loc) (i : Nat) :
    (resolveGo last as)[i]? =
      (as[i]?).map (fun a => resolveSpecAt a (foldLoc last (as.take i))) := by
  induction as generalizing last i with
  | nil => simp [resolveGo]
  | cons a rest ih =>
      cases i with
      | zero =>
          cases ha : a.loc with
          | some l => simp [resolveGo, ha, resolveSpecAt, foldLoc]
          | none => cases last <;> simp [resolveGo, ha, resolveSpecAt, foldLoc]
      | succ i =>
          cases ha : a.loc with
          | some l => simpa [resolveGo, ha, foldLoc] using ih (some l) i
          | none => cases last <;> simpa [resolveGo, ha, foldLoc] using ih _ i

theorem foldLoc_eq_revFind (l : List RawArtifact) (last : Option Loc) :
    foldLoc last l =
      orDefault ((l.reverse.find? (fun a => a.loc.isSome)).bind RawArtifact.loc) last := by
  induction l generalizing last with
  | nil => simp [foldLoc, orDefault]
  | cons a rest ih =>
      cases ha : a.loc with
      | some loc0 =>
          simp only [foldLoc, ha]
          rw [ih (some loc0), List.reverse_cons, List.find?_append]
          cases hfind : rest.reverse.find? (fun a => a.loc.isSome) with
          | some x =>
              have hx : x.loc.isSome = true := by
                simpa using List.find?_some hfind
              cases hxl : x.loc with
              | some l2 => simp [hfind, orDefault, hxl]
              | none => rw [hxl] at hx; cases hx
          | none => simp [hfind, List.find?, ha, orDefault]
      | none =>
          simp only [foldLoc, ha]
          rw [ih last, List.reverse_cons, List.find?_append]
          cases hfind : rest.reverse.find? (fun a => a.loc.isSome) with
          | some x =>
              have hx : x.loc.isSome = true := by
                simpa using List.find?_some hfind
              cases hxl : x.loc with
              | some l2 => simp [hfind, orDefault, hxl]
              | none => rw [hxl] at hx; cases hx
          | none => simp [hfind, List.find?, ha, orDefault]

/-- C1: for every timestamp-sorted artifact sequence, the Location Resolver
forward-fills: an artifact with an intrinsic location keeps it unmarked, an
artifact lacking one receives the location of the most recent preceding
intrinsically-geolocated artifact marked `approximated = true`, and an
artifact preceding the first geolocated one stays unlocated (never
backward-filled).  In particular, on
`[loc(10,20)@t1, none@t2, none@t3, loc(11,21)@t4]` the two `none` artifacts
resolve to `(10,20)` with `approximated = true`, and an unlocated artifact
at `t0 < t1` remains unlocated. -/
theorem location_resolver_forward_fill (artifacts : List RawArtifact)
    (_hsorted : sortedByTimestamp artifacts = true) :
    (resolve artifacts).length = artifacts.length
    ∧ (∀ i, (resolve artifacts)[i]? =
        (artifacts[i]?).map (fun a => resolveSpecAt a (lastIntrinsicBefore artifacts i)))
    ∧ (∀ i, lastIntrinsicBefore artifacts i =
        ((artifacts.take i).reverse.find? (fun a => a.loc.isSome)).bind RawArtifact.loc)
    ∧ resolve c1InputEx = c1OutputEx
    ∧ resolve c1InputEx0 = c1OutputEx0 := by
  refine ⟨resolveGo_length none artifacts, fun i => ?_, fun i => ?_, by decide, by decide⟩
  · exact resolveGo_getElem? artifacts none i
  · have h := foldLoc_eq_revFind (artifacts.take i) none
    have hnone : ∀ x : Option Loc, orDefault x none = x := by
      intro x; cases x <;> rfl
    exact h.trans (hnone _)

theorem location_resolver_forward_fill_witness :
    resolve c1InputEx0 = c1OutputEx0 :=
  (location_resolver_forward_fill c1InputEx0 (by decide)).2.2.2.2

/-!
## Lemmas about the GeoJSON Generator
-/

theorem generateDayFeatures_eq_filterMap (arts : List DayArtifact) :
    generateDayFeatures arts = arts.filterMap featureOf := by
  induction arts with
  | nil => rfl
  | cons a rest ih =>
      cases hf : featureOf a <;>
        simp [generateDayFeatures, hf, List.filterMap_cons, ih]

theorem featureOf_track (a : DayArtifact) (ht : isTrackArtifact a = true) :
    ∃ f, featureOf a = some f ∧ isLineGFeature f = true := by
  cases a with
  | track i ts segs =>
      rcases segs with _ | ⟨s, _ | ⟨s2, r⟩⟩ <;>
        exact ⟨_, rfl, rfl⟩
  | media i mt ts l appr => simp [isTrackArtifact] at ht

theorem featureOf_geolocated_media (a : DayArtifact)
    (hm : isGeolocatedMedia a = true) :
    ∃ f, featureOf a = some f ∧ isPointGFeature f = true := by
  cases a with
  | track i ts segs => simp [isGeolocatedMedia] at hm
  | media i mt ts l appr =>
      cases l with
      | some loc0 => exact ⟨_, rfl, rfl⟩
      | none => simp [isGeolocatedMedia] at hm

theorem generateDayFeatures_countP_line (arts : List DayArtifact) :
    (generateDayFeatures arts).countP isLineGFeature = arts.countP isTrackArtifact := by
  induction arts with
  | nil => rfl
  | cons a rest ih =>
      cases a with
      | track i ts segs =>
          rcases segs with _ | ⟨s, _ | ⟨s2, r⟩⟩ <;>
            simp [generateDayFeatures, featureOf, List.countP_cons, isLineGFeature,
              isTrackArtifact, ih]
      | media i mt ts l appr =>
          cases l with
          | some loc0 =>
              simp [generateDayFeatures, featureOf, List.countP_cons, isLineGFeature,
                isTrackArtifact, ih]
          | none =>
              simp [generateDayFeatures, featureOf, List.countP_cons,
                isTrackArtifact, ih]

theorem generateDayFeatures_countP_point (arts : List DayArtifact) :
    (generateDayFeatures arts).countP isPointGFeature = arts.countP isGeolocatedMedia := by
  induction arts with
  | nil => rfl
  | cons a rest ih =>
      cases a with
      | track i ts segs =>
          rcases segs with _ | ⟨s, _ | ⟨s2, r⟩⟩ <;>
            simp [generateDayFeatures, featureOf, List.countP_cons, isPointGFeature,
              isGeolocatedMedia, ih]
      | media i mt ts l appr =>
          cases l with
          | some loc0 =>
              simp [generateDayFeatures, featureOf, List.countP_cons, isPointGFeature,
                isGeolocatedMedia, ih]
          | none =>
              simp [generateDayFeatures, featureOf, List.countP_cons,
                isGeolocatedMedia, ih]

/-- C5: for every Day, the GeoJSON Generator emits one FeatureCollection
with exactly one `LineString`/`MultiLineString` feature per track artifact
and exactly one `Point` feature per geolocated non-track artifact, the
features following the Day's artifact order (the collection is the ordered
`filterMap` of the per-artifact feature); in particular a Day with one
3-point GPX track and two geolocated photos yields exactly one
`LineString` feature and two `Point` features in the Day's artifact
order. -/
theorem geojson_generator_day_features (arts : List DayArtifact) :
    generateDayFeatures arts = arts.filterMap featureOf
    ∧ (generateDayFeatures arts).countP isLineGFeature = arts.countP isTrackArtifact
    ∧ (generateDayFeatures arts).countP isPointGFeature = arts.countP isGeolocatedMedia
    ∧ (∀ a : DayArtifact, isTrackArtifact a = true →
        ∃ f, featureOf a = some f ∧ isLineGFeature f = true)
    ∧ (∀ a : DayArtifact, isGeolocatedMedia a = true →
        ∃ f, featureOf a = some f ∧ isPointGFeature f = true)
    ∧ generateDayFeatures c5DayEx = c5FeaturesEx :=
  ⟨generateDayFeatures_eq_filterMap arts,
   generateDayFeatures_countP_line arts,
   generateDayFeatures_countP_point arts,
   featureOf_track, featureOf_geolocated_media, by decide⟩

theorem geojson_generator_day_features_witness :
    generateDayFeatures c5DayEx = c5FeaturesEx :=
  (geojson_generator_day_features c5DayEx).2.2.2.2.2

/-!
## Lemmas about the Travelogue Builder
-/

theorem insertAt_count (l : List Nat) (p x y : Nat) :
    (insertAt l p y).count x = l.count x + (if y = x then 1 else 0) := by
  have h : l.count x = (l.take p).count x + (l.drop p).count x := by
    conv_lhs => rw [← List.take_append_drop p l]
    exact List.count_append x (l.take p) (l.drop p)
  simp [insertAt, List.count_append, List.count_cons, h]
  omega

theorem mem_insertAt_self (l : List Nat) (p y : Nat) : y ∈ insertAt l p y := by
  simp [insertAt]

theorem erase_insertAt (l : List Nat) (p y : Nat) (h : y ∉ l) :
    (insertAt l p y).erase y = l := by
  have htake : y ∉ l.take p := fun hy => h (List.take_subset p l hy)
  rw [insertAt, List.erase_append_right _ htake, List.erase_cons_head,
    List.take_append_drop]

theorem insertAt_cons_succ (a : Nat) (l : List Nat) (n y : Nat) :
    insertAt (a :: l) (n + 1) y = a :: insertAt l n y := by
  simp [insertAt]

theorem insertAt_erase_indexOf (l : List Nat) (y : Nat) (h : y ∈ l) :
    insertAt (l.erase y) (l.indexOf y) y = l := by
  induction l with
  | nil => cases h
  | cons a rest ih =>
      by_cases hay : a = y
      · subst hay
        simp [List.erase_cons_head, List.indexOf_cons_self, insertAt]
      · have hmem : y ∈ rest := by
          cases List.mem_cons.mp h with
          | inl h2 => exact absurd h2.symm hay
          | inr h2 => exact h2
        rw [List.erase_cons_tail, List.indexOf_cons_ne _ (by simpa using hay),
          insertAt_cons_succ, ih hmem]
        simp [hay]

theorem dayFind_some_key {days : List Day} {k : String} {d : Day}
    (h : dayFind days k = some d) : d.key = k := by
  have := List.find?_some h
  simpa using this

theorem dayFind_some_mem {days : List Day} {k : String} {d : Day}
    (h : dayFind days k = some d) : d ∈ days :=
  List.mem_of_find?_eq_some h

theorem updateDay_map_key (days : List Day) (k : String) (f : List Nat → List Nat) :
    (updateDay days k f).map Day.key = days.map Day.key := by
  induction days with
  | nil => rfl
  | cons d rest ih =>
      by_cases hd : d.key = k
      · simp [updateDay, hd]
      · simp [updateDay, hd, ih]

theorem dayFind_updateDay_ne (days : List Day) (k : String)
    (f : List Nat → List Nat) (k2 : String) (hne : k2 ≠ k) :
    dayFind (updateDay days k f) k2 = dayFind days k2 := by
  induction days with
  | nil => rfl
  | cons d rest ih =>
      have hne2 : k ≠ k2 := fun h2 => hne h2.symm
      by_cases hd : d.key = k
      · have hd2 : ¬ d.key = k2 := by
          rw [hd]; exact hne2
        simp [updateDay, hd, dayFind, List.find?, hd2, hne2, hne]
      · by_cases hd2 : d.key = k2
        · simp [updateDay, hd, dayFind, List.find?, hd2, hne2, hne]
        · simpa [updateDay, hd, dayFind, List.find?, hd2] using ih

theorem dayFind_updateDay_eq (days : List Day) (k : String)
    (f : List Nat → List Nat) :
    dayFind (updateDay days k f) k =
      (dayFind days k).map (fun d => { d with artifacts := f d.artifacts }) := by
  induction days with
  | nil => rfl
  | cons d rest ih =>
      by_cases hd : d.key = k
      · simp [updateDay, hd, dayFind, List.find?]
      · simpa [updateDay, hd, dayFind, List.find?] using ih

theorem updateDay_comp (days : List Day) (k : String)
    (f g : List Nat → List Nat) :
    updateDay (updateDay days k f) k g = updateDay days k (fun l => g (f l)) := by
  induction days with
  | nil => rfl
  | cons d rest ih =>
      by_cases hd : d.key = k
      · simp [updateDay, hd]
      · simp [updateDay, hd, ih]

theorem updateDay_id (days : List Day) (k : String) (f : List Nat → List Nat)
    (h : ∀ d, dayFind days k = some d → f d.artifacts = d.artifacts) :
    updateDay days k f = days := by
  induction days with
  | nil => rfl
  | cons d rest ih =>
      obtain ⟨dk, da⟩ := d
      by_cases hd : dk = k
      · subst hd
        have hfind : dayFind (Day.mk dk da :: rest) dk = some (Day.mk dk da) := by
          simp [dayFind, List.find?]
        have harts := h (Day.mk dk da) hfind
        simp at harts
        simp [updateDay, harts]
      · have ih2 : updateDay rest k f = rest := by
          refine ih (fun d2 hd2 => h d2 ?_)
          simpa [dayFind, List.find?, hd] using hd2
        simp [updateDay, hd, ih2]

theorem updateDay_count_sum (days : List Day) (k : String)
    (f : List Nat → List Nat) (x : Nat) (d0 : Day)
    (h : dayFind days k = some d0) :
    ((updateDay days k f).map (fun d => d.artifacts.count x)).sum
        + d0.artifacts.count x
      = (days.map (fun d => d.artifacts.count x)).sum
        + (f d0.artifacts).count x := by
  induction days with
  | nil => simp [dayFind] at h
  | cons d rest ih =>
      by_cases hd : d.key = k
      · have hd0 : d0 = d := by
          have h2 : dayFind (d :: rest) k = some d := by
            simp [dayFind, List.find?, hd]
          rw [h2] at h
          exact (Option.some.inj h).symm
        subst hd0
        simp [updateDay, hd]
        omega
      · have h2 : dayFind rest k = some d0 := by
          simpa [dayFind, List.find?, hd] using h
        have ih2 := ih h2
        simp [updateDay, hd]
        omega

theorem count_le_ownersSum (days : List Day) (x : Nat) (d : Day) (hd : d ∈ days) :
    d.artifacts.count x ≤ (days.map (fun d => d.artifacts.count x)).sum :=
  List.single_le_sum (fun _ _ => Nat.zero_le _) _
    (List.mem_map_of_mem (fun d => d.artifacts.count x) hd)

theorem moveArtifact_ok_elim {t : Travelogue} {aid : Nat} {fromD toD : String}
    {pos : Nat} {t2 : Travelogue}
    (h : moveArtifact t aid fromD toD pos = Except.ok t2) :
    ∃ fd td, findDay t fromD = some fd ∧ findDay t toD = some td
      ∧ aid ∈ fd.artifacts
      ∧ t2.days = updateDay (updateDay t.days fromD (fun l => l.erase aid))
          toD (fun l => insertAt l pos aid) := by
  cases hf : findDay t fromD with
  | none => simp [moveArtifact, hf] at h
  | some fd =>
      cases ht : findDay t toD with
      | none => simp [moveArtifact, hf, ht] at h
      | some td =>
          by_cases hmem : aid ∈ fd.artifacts
          · refine ⟨fd, td, rfl, rfl, hmem, ?_⟩
            simp [moveArtifact, hf, ht, hmem] at h
            rw [← h]
          · simp [moveArtifact, hf, ht, hmem] at h

theorem moveArtifact_ownersCount {t t2 : Travelogue} {aid : Nat}
    {fromD toD : String} {pos : Nat}
    (h : moveArtifact t aid fromD toD pos = Except.ok t2) (x : Nat) :
    ownersCount t2 x = ownersCount t x := by
  obtain ⟨fd, td, hf, ht, hmem, hdays⟩ := moveArtifact_ok_elim h
  have hf2 : dayFind t.days fromD = some fd := hf
  have e1 : ((updateDay t.days fromD (fun l => l.erase aid)).map
      (fun d => d.artifacts.count x)).sum + fd.artifacts.count x
      = (t.days.map (fun d => d.artifacts.count x)).sum
        + (fd.artifacts.erase aid).count x :=
    updateDay_count_sum t.days fromD (fun l => l.erase aid) x fd hf2
  have hS0 : fd.artifacts.count x
      ≤ (t.days.map (fun d => d.artifacts.count x)).sum :=
    count_le_ownersSum t.days x fd (dayFind_some_mem hf2)
  have hfind2ex : ∃ d2, dayFind (updateDay t.days fromD (fun l => l.erase aid)) toD
      = some d2 := by
    by_cases htk : toD = fromD
    · subst htk
      rw [dayFind_updateDay_eq, hf2]
      exact ⟨_, rfl⟩
    · rw [dayFind_updateDay_ne _ _ _ _ htk]
      exact ⟨td, ht⟩
  obtain ⟨d2, hfind2⟩ := hfind2ex
  have e2 : ((updateDay (updateDay t.days fromD (fun l => l.erase aid)) toD
        (fun l => insertAt l pos aid)).map (fun d => d.artifacts.count x)).sum
        + d2.artifacts.count x
      = ((updateDay t.days fromD (fun l => l.erase aid)).map
          (fun d => d.artifacts.count x)).sum
        + (insertAt d2.artifacts pos aid).count x :=
    updateDay_count_sum _ toD (fun l => insertAt l pos aid) x d2 hfind2
  rw [insertAt_count] at e2
  have hres : ownersCount t2 x =
      ((updateDay (updateDay t.days fromD (fun l => l.erase aid)) toD
        (fun l => insertAt l pos aid)).map (fun d => d.artifacts.count x)).sum := by
    rw [ownersCount, hdays]
  rw [hres]
  unfold ownersCount
  by_cases hx : aid = x
  · subst hx
    have hc1 : (fd.artifacts.erase aid).count aid = fd.artifacts.count aid - 1 :=
      List.count_erase_self aid fd.artifacts
    have hcpos : 0 < fd.artifacts.count aid := List.count_pos_iff.mpr hmem
    rw [hc1] at e1
    rw [if_pos rfl] at e2
    omega
  · have hc1 : (fd.artifacts.erase aid).count x = fd.artifacts.count x :=
      List.count_erase_of_ne (fun h2 => hx h2.symm) fd.artifacts
    rw [hc1] at e1
    rw [if_neg hx] at e2
    omega

theorem applyMoves_ownersCount (ops : List MoveOp) (t : Travelogue) (x : Nat) :
    ownersCount (applyMoves t ops) x = ownersCount t x := by
  induction ops generalizing t with
  | nil => rfl
  | cons op rest ih =>
      rw [applyMoves]
      cases hm : moveArtifact t op.artifactId op.fromDay op.toDay op.position with
      | ok t2 => rw [ih t2, moveArtifact_ownersCount hm]
      | error e => exact ih t

/-- C2: for every Travelogue and any sequence of moveArtifact/reorder
operations, every Artifact placed into the Travelogue keeps belonging to
exactly one Day: an artifact with exactly one owning Day before the moves
has exactly one owning Day after them, never zero and never two or more
(the Day-wise ownership count of every artifact id is preserved by every
move). -/
theorem travelogue_exactly_one_day (t : Travelogue) (ops : List MoveOp)
    (aid : Nat) (hone : ownersCount t aid = 1) :
    ownersCount (applyMoves t ops) aid = 1 := by
  rw [applyMoves_ownersCount]
  exact hone

theorem travelogue_exactly_one_day_witness :
    ownersCount (applyMoves tEx [⟨1, "2025-06-14", "2025-06-15", 1⟩]) 1 = 1 :=
  travelogue_exactly_one_day tEx [⟨1, "2025-06-14", "2025-06-15", 1⟩] 1 (by decide)

/-- C3: `moveArtifact(artifactId, fromDay, toDay, position)` fails with
`NotFoundError` exactly when a referenced day does not exist or the
artifact is not currently owned by `fromDay` — the failing call returns
only the error and hands back no modified Travelogue, so no partial
mutation is applied — and on success the artifact is removed from
`fromDay`'s sequence and inserted at `position` in `toDay`'s sequence with
every artifact's Day-ownership count unchanged (no duplication). -/
theorem moveArtifact_contract (t : Travelogue) (aid : Nat)
    (fromD toD : String) (pos : Nat) :
    (moveArtifact t aid fromD toD pos = Except.error TlError.NotFoundError ↔
      (findDay t fromD = none ∨ findDay t toD = none ∨
        ∃ fd, findDay t fromD = some fd ∧ aid ∉ fd.artifacts))
    ∧ (∀ t2, moveArtifact t aid fromD toD pos = Except.ok t2 →
        t2.days = updateDay (updateDay t.days fromD (fun l => l.erase aid)) toD
          (fun l => insertAt l pos aid)
        ∧ ∀ x, ownersCount t2 x = ownersCount t x) := by
  constructor
  · constructor
    · intro h
      cases hf : findDay t fromD with
      | none => exact Or.inl rfl
      | some fd =>
          cases ht : findDay t toD with
          | none => exact Or.inr (Or.inl rfl)
          | some td =>
              by_cases hmem : aid ∈ fd.artifacts
              · simp [moveArtifact, hf, ht, hmem] at h
              · exact Or.inr (Or.inr ⟨fd, rfl, hmem⟩)
    · intro h
      rcases h with hf | ht | ⟨fd, hf, hmem⟩
      · simp [moveArtifact, hf]
      · cases hf2 : findDay t fromD with
        | none => simp [moveArtifact, hf2]
        | some fd => simp [moveArtifact, hf2, ht]
      · cases ht : findDay t toD with
        | none => simp [moveArtifact, hf, ht]
        | some td => simp [moveArtifact, hf, ht, hmem]
  · intro t2 h
    obtain ⟨fd, td, hf, ht, hmem, hdays⟩ := moveArtifact_ok_elim h
    exact ⟨hdays, moveArtifact_ownersCount h⟩

theorem moveArtifact_contract_witness :
    moveArtifact tEx 99 "2025-06-14" "2025-06-15" 0
      = Except.error TlError.NotFoundError :=
  (moveArtifact_contract tEx 99 "2025-06-14" "2025-06-15" 0).1.mpr
    (Or.inr (Or.inr ⟨⟨"2025-06-14", [1]⟩, by decide, by decide⟩))

theorem two_mem_le_sum (l : List Day) (g : Day → Nat) (a b : Day)
    (ha : a ∈ l) (hb : b ∈ l) (hne : a ≠ b) :
    g a + g b ≤ (l.map g).sum := by
  induction l with
  | nil => cases ha
  | cons x rest ih =>
      rcases List.mem_cons.mp ha with rfl | ha2
      · rcases List.mem_cons.mp hb with rfl | hb2
        · exact absurd rfl hne
        · have hb3 : g b ≤ (rest.map g).sum :=
            List.single_le_sum (fun _ _ => Nat.zero_le _) _
              (List.mem_map_of_mem g hb2)
          simp [List.map_cons, List.sum_cons]
          omega
      · rcases List.mem_cons.mp hb with rfl | hb2
        · have ha3 : g a ≤ (rest.map g).sum :=
            List.single_le_sum (fun _ _ => Nat.zero_le _) _
              (List.mem_map_of_mem g ha2)
          simp [List.map_cons, List.sum_cons]
          omega
        · have := ih ha2 hb2
          simp [List.map_cons, List.sum_cons]
          omega

/-- C4: moving an artifact from Day A to Day B and then moving it back to
its original position in Day A restores the Travelogue exactly: the second
move succeeds and returns a structure identical to the state before the
first move. -/
theorem move_there_and_back (t t1 : Travelogue) (aid : Nat)
    (dayA dayB : String) (q : Nat) (da : Day)
    (hcount : ownersCount t aid ≤ 1)
    (hda : findDay t dayA = some da)
    (h1 : moveArtifact t aid dayA dayB q = Except.ok t1) :
    moveArtifact t1 aid dayB dayA (da.artifacts.indexOf aid) = Except.ok t := by
  obtain ⟨fd, td, hf, ht, hmem0, hdays⟩ := moveArtifact_ok_elim h1
  have hda2 : dayFind t.days dayA = some da := hda
  have hf2 : dayFind t.days dayA = some fd := hf
  obtain rfl : da = fd := Option.some.inj (hda2.symm.trans hf2)
  have hmem : aid ∈ da.artifacts := hmem0
  have ht2 : dayFind t.days dayB = some td := ht
  have hkeyA : da.key = dayA := dayFind_some_key hda2
  have hkeyB : td.key = dayB := dayFind_some_key ht2
  have hcnt_da : 0 < da.artifacts.count aid := List.count_pos_iff.mpr hmem
  have hcnt_le : da.artifacts.count aid ≤ 1 :=
    le_trans (count_le_ownersSum t.days aid da (dayFind_some_mem hda2)) hcount
  have hcnt1 : da.artifacts.count aid = 1 := le_antisymm hcnt_le hcnt_da
  have hnotmem_erase : aid ∉ da.artifacts.erase aid := by
    have h0 : (da.artifacts.erase aid).count aid = 0 := by
      rw [List.count_erase_self, hcnt1]
    intro hmm
    have := List.count_pos_iff.mpr hmm
    omega
  by_cases hAB : dayB = dayA
  · subst hAB
    obtain rfl : da = td := Option.some.inj (hda2.symm.trans ht2)
    rw [updateDay_comp] at hdays
    have hfind1 : dayFind t1.days dayB
        = some ⟨da.key, insertAt (da.artifacts.erase aid) q aid⟩ := by
      rw [hdays, dayFind_updateDay_eq, hda2]
      rfl
    have hmem1 : aid ∈ insertAt (da.artifacts.erase aid) q aid :=
      mem_insertAt_self _ _ _
    simp only [moveArtifact, findDay, hfind1, hmem1, if_pos, ite_true]
    simp only [Except.ok.injEq]
    have hgoal : updateDay (updateDay t1.days dayB (fun l => l.erase aid)) dayB
        (fun l => insertAt l (da.artifacts.indexOf aid) aid) = t.days := by
      rw [hdays, updateDay_comp, updateDay_comp]
      apply updateDay_id
      intro d hd
      obtain rfl : da = d := Option.some.inj (hda2.symm.trans hd)
      show insertAt ((insertAt (da.artifacts.erase aid) q aid).erase aid)
          (da.artifacts.indexOf aid) aid = da.artifacts
      rw [erase_insertAt _ _ _ hnotmem_erase, insertAt_erase_indexOf _ _ hmem]
    rw [hgoal]
  · have hBA : dayA ≠ dayB := fun h2 => hAB h2.symm
    have hne_days : da ≠ td := by
      intro he
      apply hAB
      rw [← hkeyB, ← he, hkeyA]
    have hnotmem_td : aid ∉ td.artifacts := by
      have hsum := two_mem_le_sum t.days (fun d => d.artifacts.count aid) da td
        (dayFind_some_mem hda2) (dayFind_some_mem ht2) hne_days
      have hsum2 : (t.days.map (fun d => d.artifacts.count aid)).sum ≤ 1 := hcount
      intro hmm
      have := List.count_pos_iff.mpr hmm
      simp only [] at hsum
      omega
    have hfB1 : dayFind t1.days dayB
        = some ⟨td.key, insertAt td.artifacts q aid⟩ := by
      rw [hdays, dayFind_updateDay_eq, dayFind_updateDay_ne _ _ _ _ hAB, ht2]
      rfl
    have hfA1 : dayFind t1.days dayA
        = some ⟨da.key, da.artifacts.erase aid⟩ := by
      rw [hdays, dayFind_updateDay_ne _ _ _ _ hBA, dayFind_updateDay_eq, hda2]
      rfl
    have hmem1 : aid ∈ insertAt td.artifacts q aid := mem_insertAt_self _ _ _
    simp only [moveArtifact, findDay, hfB1, hfA1, hmem1, if_pos, ite_true]
    simp only [Except.ok.injEq]
    have hBid : updateDay (updateDay t.days dayA (fun l => l.erase aid)) dayB
        (fun l => (insertAt l q aid).erase aid)
        = updateDay t.days dayA (fun l => l.erase aid) := by
      apply updateDay_id
      intro d hd
      rw [dayFind_updateDay_ne _ _ _ _ hAB, ht2] at hd
      obtain rfl : td = d := Option.some.inj hd
      show (insertAt td.artifacts q aid).erase aid = td.artifacts
      exact erase_insertAt _ _ _ hnotmem_td
    have hgoal : updateDay (updateDay t1.days dayB (fun l => l.erase aid)) dayA
        (fun l => insertAt l (da.artifacts.indexOf aid) aid) = t.days := by
      rw [hdays, updateDay_comp, hBid, updateDay_comp]
      apply updateDay_id
      intro d hd
      obtain rfl : da = d := Option.some.inj (hda2.symm.trans hd)
      show insertAt ((da.artifacts.erase aid)) (da.artifacts.indexOf aid) aid
          = da.artifacts
      exact insertAt_erase_indexOf _ _ hmem
    rw [hgoal]

theorem move_there_and_back_witness :
    moveArtifact t1Ex4 7 "2025-06-15" "2025-06-14" 0 = Except.ok tEx4 :=
  move_there_and_back tEx4 t1Ex4 7 "2025-06-14" "2025-06-15" 0
    ⟨"2025-06-14", [7]⟩ (by decide) (by decide) rfl

/-!
## Lemmas about the viewer
-/

theorem processUrls_append (w : JValue → FetchResult) (l1 l2 : List JValue)
    (c : Nat) :
    processUrls w c (l1 ++ l2) =
      ((processUrls w c l1).1 ++ (processUrls w (c + l1.length) l2).1,
       (processUrls w c l1).2 ++ (processUrls w (c + l1.length) l2).2) := by
  induction l1 generalizing c with
  | nil => simp [processUrls]
  | cons u r ih =>
      have harith : c + 1 + r.length = c + (r.length + 1) := by omega
      simp [processUrls, ih (c + 1), harith]

theorem processUrls_congr (w1 w2 : JValue → FetchResult) (urls : List JValue)
    (c : Nat) (hagree : ∀ x ∈ urls, w2 x = w1 x) :
    processUrls w2 c urls = processUrls w1 c urls := by
  induction urls generalizing c with
  | nil => rfl
  | cons u r ih =>
      have hu : w2 u = w1 u := hagree u (List.mem_cons_self u r)
      have hr : processUrls w2 (c + 1) r = processUrls w1 (c + 1) r :=
        ih (c + 1) (fun x hx => hagree x (List.mem_cons_of_mem u hx))
      simp [processUrls, urlLine, urlPoints, hu, hr]

theorem processUrls_fail_cons (w : JValue → FetchResult) (u : JValue)
    (rest : List JValue) (c : Nat)
    (hfail : FetchResult.isFailure (w u) = true) :
    processUrls w c (u :: rest) = processUrls w (c + 1) rest := by
  cases hw : w u with
  | ok d => rw [hw] at hfail; cases hfail
  | notOk s => simp [processUrls, urlLine, urlPoints, hw]
  | fetchError => simp [processUrls, urlLine, urlPoints, hw]

theorem processUrls_popup (w : JValue → FetchResult) (urls : List JValue)
    (c : Nat) (pr : Feature × String) (hpr : pr ∈ (processUrls w c urls).2) :
    pr.2 = bindPopupText pr.1.props := by
  induction urls generalizing c with
  | nil => cases hpr
  | cons u r ih =>
      rw [processUrls] at hpr
      rcases List.mem_append.mp hpr with hin | hin
      · rw [urlPoints] at hin
        cases hw : w u with
        | ok d =>
            rw [hw] at hin
            obtain ⟨f, _, rfl⟩ := List.mem_map.mp hin
            rfl
        | notOk s => rw [hw] at hin; cases hin
        | fetchError => rw [hw] at hin; cases hin
      · exact ih (c + 1) hin

/-- C6: the popup bound to a Point feature's marker is built from
`feature.properties.type` and `feature.properties.timestamp` and from
nothing else: with a timestamp property present the popup text is
`<type>, <timestamp>`, with it absent the popup text is `<type>, ` (empty
date label); two property maps agreeing on exactly these two keys produce
the same popup, and every marker the viewer adds carries exactly this
popup for its feature. -/
theorem popup_contract (props : List (String × String)) (ty : String)
    (hty : lookupProp props "type" = some ty) :
    (∀ ts, lookupProp props "timestamp" = some ts →
        bindPopupText props = ty ++ ", " ++ ts)
    ∧ (lookupProp props "timestamp" = none → bindPopupText props = ty ++ ", ")
    ∧ (∀ props2, lookupProp props2 "type" = lookupProp props "type" →
        lookupProp props2 "timestamp" = lookupProp props "timestamp" →
        bindPopupText props2 = bindPopupText props)
    ∧ (∀ (w : JValue → FetchResult) (c : Nat) (urls : List JValue)
        (pr : Feature × String), pr ∈ (processUrls w c urls).2 →
        pr.2 = bindPopupText pr.1.props) := by
  refine ⟨?_, ?_, ?_, fun w c urls pr hpr => processUrls_popup w urls c pr hpr⟩
  · intro ts hts
    by_cases h0 : ts = ""
    · subst h0
      simp [bindPopupText, hts, hty, renderProp]
    · simp [bindPopupText, hts, hty, renderProp, h0]
  · intro hts
    simp [bindPopupText, hts, hty, renderProp]
  · intro props2 h1 h2
    rw [hty] at h1
    simp only [bindPopupText, h1, h2, hty]

theorem popup_contract_witness :
    bindPopupText popupPropsEx = "image" ++ ", " ++ "2025-06-14" :=
  (popup_contract popupPropsEx "image" rfl).1 "2025-06-14" rfl

/-- C7: a failure affecting one Day's GeoJSON file (non-ok response, fetch
error or parse error) does not prevent the viewer from loading and
rendering every other Day's file: with the URL `u` failing, the map ends up
with exactly the line layers and markers every other URL contributes under
a fetch world in which those URLs behave the same, and `u` contributes
nothing. -/
theorem tl_view_per_day_isolation (cfg : JValue) (pre post : List JValue)
    (u : JValue) (w1 w2 : JValue → FetchResult) (m : MapState)
    (hcfg : getField cfg "geojsonFiles" = some (JValue.jarr (pre ++ u :: post)))
    (hfail : FetchResult.isFailure (w2 u) = true)
    (hagree : ∀ x, x ∈ pre ∨ x ∈ post → w2 x = w1 x) :
    loadTravelogueGeojson cfg w2 m = { m with layers :=
      m.layers ++ ((processUrls w1 4 pre).1
          ++ (processUrls w1 (4 + pre.length + 1) post).1)
        ++ [Layer.markerGroup ((processUrls w1 4 pre).2
          ++ (processUrls w1 (4 + pre.length + 1) post).2)] } := by
  have hpre : processUrls w2 4 pre = processUrls w1 4 pre :=
    processUrls_congr w1 w2 pre 4 (fun x hx => hagree x (Or.inl hx))
  have hpost : processUrls w2 (4 + pre.length + 1) post
      = processUrls w1 (4 + pre.length + 1) post :=
    processUrls_congr w1 w2 post _ (fun x hx => hagree x (Or.inr hx))
  have hsplit : processUrls w2 4 (pre ++ u :: post) =
      ((processUrls w1 4 pre).1 ++ (processUrls w1 (4 + pre.length + 1) post).1,
       (processUrls w1 4 pre).2
         ++ (processUrls w1 (4 + pre.length + 1) post).2) := by
    rw [processUrls_append,
      processUrls_fail_cons w2 u post (4 + pre.length) hfail, hpre, hpost]
  simp only [loadTravelogueGeojson, hcfg, hsplit]

theorem tl_view_per_day_isolation_witness :
    loadTravelogueGeojson cfgUrlsEx wFailEx mEx = { mEx with layers :=
      mEx.layers ++ ((processUrls wOkEx 4 [JValue.jstr "a0"]).1
          ++ (processUrls wOkEx (4 + 1 + 1) [JValue.jstr "c0"]).1)
        ++ [Layer.markerGroup ((processUrls wOkEx 4 [JValue.jstr "a0"]).2
          ++ (processUrls wOkEx (4 + 1 + 1) [JValue.jstr "c0"]).2)] } :=
  tl_view_per_day_isolation cfgUrlsEx [JValue.jstr "a0"] [JValue.jstr "c0"]
    (JValue.jstr "bad") wOkEx wFailEx mEx rfl rfl
    (fun x hx => by
      rcases hx with hx | hx
      · rw [List.mem_singleton] at hx; subst hx; rfl
      · rw [List.mem_singleton] at hx; subst hx; rfl)

/-- C8: the shipped `tripConfig` object conforms to the trip-configuration
shape the spec fixes: a string `tripName`, a `bbox` of two lat-lon pairs,
and an array of GeoJSON file URL strings in `geojsonFiles`. -/
theorem tripConfig_conforms_to_shape : tripConfigShapeSpec tripConfig = true :=
  rfl

/-- C9: `loadTrip` passes the global `tripConfig`, not its `config`
parameter, to `loadTravelogueGeojson`; only `map.fitBounds` uses the
argument's `bbox`.  Hence any two configs agreeing on `bbox` — however
much their `geojsonFiles` differ — produce identical map states, layers
included. -/
theorem loadTrip_uses_global_tripConfig (w : JValue → FetchResult)
    (c1 c2 : JValue) (m : MapState)
    (hbbox : getField c1 "bbox" = getField c2 "bbox") :
    loadTrip w c1 m = loadTrip w c2 m := by
  simp only [loadTrip, hbbox]

theorem loadTrip_uses_global_tripConfig_witness :
    loadTrip wOkEx tripConfig mEx = loadTrip wOkEx cfgBboxOnlyEx mEx :=
  loadTrip_uses_global_tripConfig wOkEx tripConfig cfgBboxOnlyEx mEx rfl

/-- C10: when `config.geojsonFiles` is absent or not an array,
`loadTravelogueGeojson` returns with the map unchanged; it fetches no URL
(the result does not depend on the fetch world at all) and, being a total
function of the embedding, throws nothing. -/
theorem loadTravelogueGeojson_no_files_noop (cfg : JValue) (m : MapState)
    (hbad : ∀ urls : List JValue,
      getField cfg "geojsonFiles" ≠ some (JValue.jarr urls)) :
    ∀ w : JValue → FetchResult, loadTravelogueGeojson cfg w m = m := by
  intro w
  unfold loadTravelogueGeojson
  cases hg : getField cfg "geojsonFiles" with
  | none => rfl
  | some v =>
      cases v with
      | jarr urls => exact absurd hg (hbad urls)
      | jstr s => rfl
      | jnum n => rfl
      | jobj fields => rfl

theorem loadTravelogueGeojson_no_files_noop_witness :
    loadTravelogueGeojson cfgNoFilesEx wOkEx mEx = mEx :=
  loadTravelogueGeojson_no_files_noop cfgNoFilesEx mEx
    (fun urls h => by
      rw [show getField cfgNoFilesEx "geojsonFiles"
        = some (JValue.jstr "oops") from rfl] at h
      exact JValue.noConfusion (Option.some.inj h))
    wOkEx
